import Mathlib

/-!
Shallow embedding of the fenago/whisper repository: two demonstration
scripts, src/1_basic_call_english_only.py and src/1_multiple_languages.py.
Each script is a single linear sequence of calls into the external whisper
library plus one standard-library network fetch.  We embed each script as
the list of observable steps it executes at module level, embed the body of
the manual-mode function detect_language_and_transcribe as a step list and
a return value parameterised by the outputs the external library would
produce (a probability mapping from detect_language, a decoding result from
decode), and embed the Python expression
  max(language_probs, key=language_probs.get)
faithfully: CPython max iterates the dict keys in insertion order and
replaces the current best only on a strictly greater key value, so it
returns the first key attaining the maximum.  A Python dict is embedded as
an association list in insertion order with distinct keys; the float
probabilities (softmax outputs, never NaN, totally ordered) are modelled
as rationals.
-/

namespace Whisper

/-- Observable steps a script or function body performs, in program order.
Fields record the arguments visible in the source: transcribeCall carries
the audio path and the language, task and verbose options passed to
model.transcribe (none when the source passes no such option); mkOptions
records the language and task handed to whisper.DecodingOptions. -/
inductive Step where
  | loadModel (name : String)
  | fetch (url : String) (filename : String)
  | transcribeCall (path : String) (language : Option String) (task : Option String) (verbose : Bool)
  | loadAudio (path : String)
  | padOrTrim
  | logMel
  | detectLanguage
  | mkOptions (language : String) (task : String)
  | decodeCall
  | printOut
deriving DecidableEq, Repr

/-- One pass of CPython max over the remaining items: the running best is
replaced only when the value of the next item is strictly greater. -/
def pickBest (best : String × ℚ) : List (String × ℚ) → String × ℚ
  | [] => best
  | q :: qs => pickBest (if q.2 > best.2 then q else best) qs

/-- Embedding of the Python expression max(language_probs,
key=language_probs.get) from src/1_multiple_languages.py line 20, over a
dict embedded as an association list in insertion order with distinct
keys.  Python max raises ValueError on an empty iterable, embedded as
none. -/
def maxByValue : List (String × ℚ) → Option (String × ℚ)
  | [] => none
  | p :: ps => some (pickBest p ps)

/-- Result of whisper.decode: per the spec the result schema is defined by
the external library; the fields the script reads are the text and the
language. -/
structure DecodingResult where
  text : String
  language : String
deriving DecidableEq, Repr

/-- One segment of a transcription result: per-segment timestamps and text,
as described in the spec data model. -/
structure Segment where
  start : ℚ
  stop : ℚ
  text : String
deriving DecidableEq, Repr

/-- Result of model.transcribe: per the spec, an unordered bundle of
recognized text, per-segment timestamps, and a language code. -/
structure TranscriptionResult where
  text : String
  segments : List Segment
  language : String
deriving DecidableEq, Repr

/-- Bytes of a file or of a remote resource. -/
abbrev Bytes := List Nat

/-- A local filesystem: maps a path to the bytes stored there, if any. -/
abbrev FileSystem := String → Option Bytes

/-- The network: maps a URL to the bytes served there; none for an
unreachable URL. -/
abbrev Web := String → Option Bytes

/-- Modelled from the spec: urllib.request.urlretrieve is Python
standard-library code, not under src/.  Spec section 4.1: given a source
URL and a destination path, retrieve the bytes at the URL and write them
to the destination, overwriting any existing file; failure (network error,
404) is not handled and propagates to the caller as an unrecoverable
error. -/
def urlretrieve (web : Web) (fs : FileSystem) (url : String) (filename : String) :
    Except String FileSystem :=
  match web url with
  | none => Except.error "URLError"
  | some bytes => Except.ok (fun p => if p = filename then some bytes else fs p)

/-- Runs a straight-line step sequence in which no step is wrapped in any
exception handler (neither script contains try/except): the external
behaviour of each step is given by fail, which returns some error message
when that step raises; the first raising step terminates the run and its
error is returned unmodified. -/
def runScript (fail : Step → Option String) : List Step → Except String Unit
  | [] => Except.ok ()
  | s :: rest =>
    match fail s with
    | some e => Except.error e
    | none => runScript fail rest

/-- A step belonging to the Fetcher component of the spec. -/
def isFetch : Step → Bool
  | .fetch _ _ => true
  | _ => false

/-- A step belonging to the Transcriber component of the spec, which
loads a pretrained speech model by name and feeds it an audio file path. -/
def isTranscriberStep : Step → Bool
  | .loadModel _ => true
  | .transcribeCall _ _ _ _ => true
  | _ => false

/-- A call to the single transcribe entry point of the model. -/
def isTranscribeCall : Step → Bool
  | .transcribeCall _ _ _ _ => true
  | _ => false

/-- A call to model.detect_language. -/
def isDetectLanguage : Step → Bool
  | .detectLanguage => true
  | _ => false

/-- A call to whisper.decode. -/
def isDecodeCall : Step → Bool
  | .decodeCall => true
  | _ => false

/-- A step that requests translation: a transcribe call or a decoding
options construction whose task option is translate. -/
def isTranslateTask : Step → Bool
  | .transcribeCall _ _ t _ => t = some "translate"
  | .mkOptions _ t => t = "translate"
  | _ => false

/-- A manual-mode pipeline step (everything except console printing). -/
def isPipelineStep : Step → Bool
  | .printOut => false
  | _ => true

namespace BasicCallEnglishOnly

/-- Hard-coded source URL of src/1_basic_call_english_only.py line 10. -/
def AUDIO_URL : String :=
  "https://github.com/fenago/whisper/raw/refs/heads/main/test_audio_files/terrible_quality.mp3"

/-- Hard-coded destination filename, line 11. -/
def AUDIO_FILE : String := "terrible_quality.mp3"

/-- Embedding of get_transcription (lines 15 to 18): calls
MODEL.transcribe on the given path with default options, prints, and
returns the full result unmodified. -/
def get_transcription (result : TranscriptionResult) : TranscriptionResult :=
  result

/-- Step trace of the body of get_transcription. -/
def get_transcription_trace (audio_file : String) : List Step :=
  [Step.transcribeCall audio_file none none false, Step.printOut]

/-- Module-level execution of src/1_basic_call_english_only.py: load the
model medium.en (line 7), fetch the audio (line 13), then call
get_transcription on the downloaded file (line 21).  The script takes no
arguments, so this trace is a closed constant. -/
def scriptTrace : List Step :=
  [Step.loadModel "medium.en", Step.fetch AUDIO_URL AUDIO_FILE] ++
    get_transcription_trace AUDIO_FILE

end BasicCallEnglishOnly

namespace MultipleLanguages

/-- Hard-coded source URL of src/1_multiple_languages.py line 7. -/
def AUDIO_URL : String :=
  "https://github.com/fenago/whisper/raw/refs/heads/main/test_audio_files/dutch_the_netherlands.mp3"

/-- Hard-coded destination filename, line 8. -/
def AUDIO_FILE : String := "dutch_the_netherlands.mp3"

/-- Step trace of the body of detect_language_and_transcribe (lines 15 to
25), parameterised by the probability mapping the external
model.detect_language returns: load audio, pad or trim, compute the
log-mel spectrogram, detect the language, print it, build DecodingOptions
with the selected language and the literal task transcribe, decode, print.
When the mapping is empty, Python max raises and the function stops right
after detection. -/
def detect_language_and_transcribe_trace (audio_file : String)
    (language_probs : List (String × ℚ)) : List Step :=
  match maxByValue language_probs with
  | none => [Step.loadAudio audio_file, Step.padOrTrim, Step.logMel, Step.detectLanguage]
  | some p =>
    [Step.loadAudio audio_file, Step.padOrTrim, Step.logMel, Step.detectLanguage,
     Step.printOut, Step.mkOptions p.1 "transcribe", Step.decodeCall, Step.printOut]

/-- Return value of detect_language_and_transcribe: the text field of the
decoding result the external whisper.decode returns, and nothing else
(line 25 returns result.text). -/
def detect_language_and_transcribe (language_probs : List (String × ℚ))
    (decoded : DecodingResult) : Option String :=
  (maxByValue language_probs).map (fun _ => decoded.text)

/-- Module-level execution of src/1_multiple_languages.py: fetch the audio
(line 10), load the model medium (line 13), then the only executed
inference is the direct-mode model.transcribe call of lines 35 to 40 with
verbose set, language nl and task translate, followed by the print of line
41.  The invocations of detect_language_and_transcribe (line 28) and of
basic transcription (line 31) are commented out.  The script takes no
arguments, so this trace is a closed constant. -/
def scriptTrace : List Step :=
  [Step.fetch AUDIO_URL AUDIO_FILE, Step.loadModel "medium",
   Step.transcribeCall AUDIO_FILE (some "nl") (some "translate") true, Step.printOut]

end MultipleLanguages

/-- A concrete probability mapping used to instantiate theorems, with
probabilities given in percent so kernel evaluation reduces. -/
def exampleProbs : List (String × ℚ) := [("en", 30), ("nl", 60), ("de", 10)]

/-- A concrete probability mapping, in percent, with a tie for the
maximum. -/
def tiedProbs : List (String × ℚ) := [("fr", 10), ("nl", 40), ("de", 40), ("it", 10)]

/-- A concrete decoding result used to instantiate theorems. -/
def exampleDecoded : DecodingResult := { text := "Hallo wereld", language := "nl" }

/-- A concrete transcription result used to instantiate theorems. -/
def exampleResult : TranscriptionResult :=
  { text := "Hello world", segments := [{ start := 0, stop := 2, text := "Hello world" }],
    language := "en" }

lemma pickBest_cons (b q : String × ℚ) (qs : List (String × ℚ)) :
    pickBest b (q :: qs) = pickBest (if q.2 > b.2 then q else b) qs := rfl

/-- The running best only grows, and the final best dominates every
remaining item. -/
lemma pickBest_le (b : String × ℚ) (l : List (String × ℚ)) :
    b.2 ≤ (pickBest b l).2 ∧ ∀ q ∈ l, q.2 ≤ (pickBest b l).2 := by
  induction l generalizing b with
  | nil => exact ⟨le_refl _, by simp⟩
  | cons q qs ih =>
    rw [pickBest_cons]
    by_cases h : q.2 > b.2
    · rw [if_pos h]
      obtain ⟨h1, h2⟩ := ih q
      exact ⟨le_of_lt (lt_of_lt_of_le h h1), by
        intro x hx
        rcases List.mem_cons.mp hx with hx | hx
        · exact hx ▸ h1
        · exact h2 x hx⟩
    · rw [if_neg h]
      obtain ⟨h1, h2⟩ := ih b
      exact ⟨h1, by
        intro x hx
        rcases List.mem_cons.mp hx with hx | hx
        · exact hx ▸ le_trans (le_of_not_lt h) h1
        · exact h2 x hx⟩

/-- The final best is the first item of b :: l attaining the maximum:
everything strictly before it has a strictly smaller value. -/
lemma pickBest_first (b : String × ℚ) (l : List (String × ℚ)) :
    ∃ l1 l2, b :: l = l1 ++ pickBest b l :: l2 ∧
      ∀ q ∈ l1, q.2 < (pickBest b l).2 := by
  induction l generalizing b with
  | nil => exact ⟨[], [], rfl, by simp⟩
  | cons q qs ih =>
    rw [pickBest_cons]
    by_cases h : q.2 > b.2
    · rw [if_pos h]
      obtain ⟨l1, l2, heq, hlt⟩ := ih q
      refine ⟨b :: l1, l2, by rw [List.cons_append, ← heq], ?_⟩
      intro x hx
      rcases List.mem_cons.mp hx with hx | hx
      · exact hx ▸ lt_of_lt_of_le h (pickBest_le q qs).1
      · exact hlt x hx
    · rw [if_neg h]
      obtain ⟨l1, l2, heq, hlt⟩ := ih b
      match l1, heq with
      | [], heq =>
        have hb : pickBest b qs = b := by
          simpa using congrArg (fun t => t.headI) heq.symm
        refine ⟨[], q :: qs, ?_, by simp⟩
        simp [hb]
      | x :: t, heq =>
        have hx : b = x := by
          simpa using congrArg (fun s => s.headI) heq
        have ht : qs = t ++ pickBest b qs :: l2 := by
          rw [List.cons_append] at heq
          exact (List.cons.inj heq).2
        refine ⟨b :: q :: t, l2, ?_, ?_⟩
        · rw [List.cons_append, List.cons_append, ← ht]
        · intro y hy
          have hblt : b.2 < (pickBest b qs).2 :=
            hx ▸ hlt x (by simp)
          rcases List.mem_cons.mp hy with hy | hy
          · exact hy ▸ hblt
          · rcases List.mem_cons.mp hy with hy | hy
            · exact hy ▸ lt_of_le_of_lt (le_of_not_lt h) hblt
            · exact hlt y (hx ▸ List.mem_cons_of_mem x hy)

/-- Claim C1: in the manual-mode function detect_language_and_transcribe,
for every nonempty probability mapping returned by language detection, the
selected language is a key of the mapping whose associated value is
greater than or equal to every value in the mapping (so it equals the
maximum value), and the decoding options of the function are built with
exactly that language. -/
theorem selected_language_attains_max_probability
    (audio_file : String) (language_probs : List (String × ℚ))
    (h : language_probs ≠ []) :
    ∃ p, maxByValue language_probs = some p ∧ p ∈ language_probs ∧
      (∀ q ∈ language_probs, q.2 ≤ p.2) ∧
      Step.mkOptions p.1 "transcribe" ∈
        MultipleLanguages.detect_language_and_transcribe_trace audio_file language_probs := by
  match language_probs, h with
  | b :: l, _ =>
    refine ⟨pickBest b l, rfl, ?_, ?_, ?_⟩
    · obtain ⟨l1, l2, heq, _⟩ := pickBest_first b l
      rw [heq]
      exact List.mem_append_right l1 (List.mem_cons_self _ _)
    · intro q hq
      rcases List.mem_cons.mp hq with hq | hq
      · exact hq ▸ (pickBest_le b l).1
      · exact (pickBest_le b l).2 q hq
    · simp [MultipleLanguages.detect_language_and_transcribe_trace, maxByValue]

/-- Witness for C1 at a concrete mapping. -/
theorem selected_language_attains_max_probability_witness :
    exampleProbs ≠ [] ∧
    ∃ p, maxByValue exampleProbs = some p ∧ p ∈ exampleProbs ∧
      (∀ q ∈ exampleProbs, q.2 ≤ p.2) ∧
      Step.mkOptions p.1 "transcribe" ∈
        MultipleLanguages.detect_language_and_transcribe_trace "dutch_the_netherlands.mp3"
          exampleProbs :=
  ⟨by decide,
   selected_language_attains_max_probability "dutch_the_netherlands.mp3" exampleProbs
     (by decide)⟩

/-- Claim C9: the language selected by detect_language_and_transcribe is
the first key, in the insertion (iteration) order of the mapping, whose
value attains the maximum: the mapping splits as l1 ++ p :: l2 with every
value in l1 strictly below the selected value and every value in the
mapping at most the selected value.  In particular a tie for the maximum
is resolved deterministically in favour of the earliest such key. -/
theorem selection_is_first_key_attaining_max
    (audio_file : String) (language_probs : List (String × ℚ))
    (h : language_probs ≠ []) :
    ∃ p l1 l2, maxByValue language_probs = some p ∧
      language_probs = l1 ++ p :: l2 ∧
      (∀ q ∈ l1, q.2 < p.2) ∧
      (∀ q ∈ language_probs, q.2 ≤ p.2) ∧
      Step.mkOptions p.1 "transcribe" ∈
        MultipleLanguages.detect_language_and_transcribe_trace audio_file language_probs := by
  match language_probs, h with
  | b :: l, _ =>
    obtain ⟨l1, l2, heq, hlt⟩ := pickBest_first b l
    refine ⟨pickBest b l, l1, l2, rfl, heq, hlt, ?_, ?_⟩
    · intro q hq
      rcases List.mem_cons.mp hq with hq | hq
      · exact hq ▸ (pickBest_le b l).1
      · exact (pickBest_le b l).2 q hq
    · simp [MultipleLanguages.detect_language_and_transcribe_trace, maxByValue]

/-- Witness for C9 at a concrete mapping with a tie for the maximum: the
selected language is nl, the earlier of the two keys with value 4/10. -/
theorem selection_is_first_key_attaining_max_witness :
    tiedProbs ≠ [] ∧ maxByValue tiedProbs = some ("nl", 40) ∧
    (∃ p l1 l2, maxByValue tiedProbs = some p ∧
      tiedProbs = l1 ++ p :: l2 ∧
      (∀ q ∈ l1, q.2 < p.2) ∧
      (∀ q ∈ tiedProbs, q.2 ≤ p.2) ∧
      Step.mkOptions p.1 "transcribe" ∈
        MultipleLanguages.detect_language_and_transcribe_trace "dutch_the_netherlands.mp3"
          tiedProbs) :=
  ⟨by decide, by decide,
   selection_is_first_key_attaining_max "dutch_the_netherlands.mp3" tiedProbs (by decide)⟩

/-- Claim C2: when the URL is reachable, the fetch retrieves the bytes
served at the URL and writes them to the destination path, overwriting
whatever file was there, and touches no other path. -/
theorem urlretrieve_writes_bytes_overwriting
    (web : Web) (fs : FileSystem) (url : String) (filename : String)
    (bytes : Bytes) (h : web url = some bytes) :
    ∃ fs2, urlretrieve web fs url filename = Except.ok fs2 ∧
      fs2 filename = some bytes ∧
      ∀ p, p ≠ filename → fs2 p = fs p := by
  refine ⟨fun p => if p = filename then some bytes else fs p, ?_, by simp, ?_⟩
  · unfold urlretrieve
    rw [h]
  · intro p hp
    simp [hp]

/-- A concrete reachable web serving two bytes at the audio URL. -/
def exampleWeb : Web :=
  fun u => if u = BasicCallEnglishOnly.AUDIO_URL then some [7, 9] else none

/-- A concrete filesystem that already holds a stale file at the
destination path, so the fetch must overwrite it. -/
def exampleFs : FileSystem :=
  fun p => if p = BasicCallEnglishOnly.AUDIO_FILE then some [1] else none

/-- Witness for C2 at a concrete web and filesystem: the destination
already holds the stale byte 1 and ends up holding the fetched bytes. -/
theorem urlretrieve_writes_bytes_overwriting_witness :
    exampleWeb BasicCallEnglishOnly.AUDIO_URL = some [7, 9] ∧
    exampleFs BasicCallEnglishOnly.AUDIO_FILE = some [1] ∧
    ∃ fs2, urlretrieve exampleWeb exampleFs BasicCallEnglishOnly.AUDIO_URL
        BasicCallEnglishOnly.AUDIO_FILE = Except.ok fs2 ∧
      fs2 BasicCallEnglishOnly.AUDIO_FILE = some [7, 9] ∧
      ∀ p, p ≠ BasicCallEnglishOnly.AUDIO_FILE → fs2 p = exampleFs p :=
  ⟨by decide, by decide,
   urlretrieve_writes_bytes_overwriting exampleWeb exampleFs
     BasicCallEnglishOnly.AUDIO_URL BasicCallEnglishOnly.AUDIO_FILE [7, 9] (by decide)⟩

/-- In a straight-line step sequence with no handler, the first raising
step terminates the run and its error is returned unmodified. -/
lemma runScript_error (fail : Step → Option String) (e : String) :
    ∀ (trace : List Step) (i : Nat) (hi : i < trace.length),
      (∀ j (hj : j < trace.length), j < i → fail (trace.get ⟨j, hj⟩) = none) →
      fail (trace.get ⟨i, hi⟩) = some e →
      runScript fail trace = Except.error e := by
  intro trace
  induction trace with
  | nil => intro i hi; simp at hi
  | cons s rest ih =>
    intro i hi hok hfail
    match i with
    | 0 =>
      simp only [List.get] at hfail
      simp [runScript, hfail]
    | Nat.succ k =>
      have hs : fail s = none := hok 0 (by simp) (Nat.succ_pos k)
      simp only [runScript, hs]
      exact ih k (by simpa using hi)
        (fun j hj hjk => hok (j + 1) (by simpa using hj) (Nat.succ_lt_succ hjk))
        (by simpa using hfail)

/-- Claim C3: in either script, a failure raised by any step (every step
earlier in program order having succeeded) propagates unmodified to the
top level and terminates the run — no repository code catches or
transforms it, since both embedded scripts are handler-free straight-line
sequences — and in particular the fetch of an unreachable URL raises. -/
theorem failures_propagate_unmodified
    (web : Web) (fs : FileSystem) (url : String) (filename : String)
    (fail : Step → Option String) (e : String) (i : Nat) (trace : List Step)
    (_hscript : trace = BasicCallEnglishOnly.scriptTrace ∨
      trace = MultipleLanguages.scriptTrace)
    (hi : i < trace.length)
    (hok : ∀ j (hj : j < trace.length), j < i → fail (trace.get ⟨j, hj⟩) = none)
    (hfail : fail (trace.get ⟨i, hi⟩) = some e)
    (hurl : web url = none) :
    runScript fail trace = Except.error e ∧
      urlretrieve web fs url filename = Except.error "URLError" := by
  refine ⟨runScript_error fail e trace i hi hok hfail, ?_⟩
  unfold urlretrieve
  rw [hurl]

/-- A failure model in which exactly the fetch step raises a network
error, as with an unreachable URL. -/
def fetchFails : Step → Option String :=
  fun s => if isFetch s then some "URLError" else none

/-- Witness for C3: in the english-only script the fetch is step 1 and
the model load before it succeeds; the network error it raises is the
error of the whole run. -/
theorem failures_propagate_unmodified_witness :
    ((BasicCallEnglishOnly.scriptTrace = BasicCallEnglishOnly.scriptTrace ∨
        BasicCallEnglishOnly.scriptTrace = MultipleLanguages.scriptTrace) ∧
      1 < BasicCallEnglishOnly.scriptTrace.length ∧
      (fun _ => (none : Option Bytes)) BasicCallEnglishOnly.AUDIO_URL = none) ∧
    (runScript fetchFails BasicCallEnglishOnly.scriptTrace = Except.error "URLError" ∧
      urlretrieve (fun _ => none) (fun _ => none) BasicCallEnglishOnly.AUDIO_URL
        BasicCallEnglishOnly.AUDIO_FILE = Except.error "URLError") :=
  ⟨⟨Or.inl rfl, by decide, rfl⟩,
   failures_propagate_unmodified (fun _ => none) (fun _ => none)
     BasicCallEnglishOnly.AUDIO_URL BasicCallEnglishOnly.AUDIO_FILE
     fetchFails "URLError" 1 BasicCallEnglishOnly.scriptTrace (Or.inl rfl)
     (by decide)
     (by
       intro j hj hj1
       match j, hj1 with
       | 0, _ => rfl)
     (by decide) rfl⟩

/-- Counterexample to claim C4: in the english-only script a Transcriber
step does precede the fetch — the model load of line 7 is step 0 and the
fetch of line 13 is step 1. -/
theorem transcriber_step_precedes_fetch_counterexample :
    BasicCallEnglishOnly.scriptTrace.head? = some (Step.loadModel "medium.en") ∧
    isTranscriberStep (Step.loadModel "medium.en") = true ∧
    BasicCallEnglishOnly.scriptTrace.findIdx isTranscriberStep = 0 ∧
    BasicCallEnglishOnly.scriptTrace.findIdx isFetch = 1 := by decide

/-- Claim C4 amended: in each script the fetch runs exactly once, and it
completes before the transcribe call that consumes the downloaded file
path (of which there is exactly one); in the multi-language script the
fetch is the very first step, but in the english-only script the model
load — a Transcriber step — precedes the fetch. -/
theorem fetch_once_before_consumption :
    BasicCallEnglishOnly.scriptTrace.countP isFetch = 1 ∧
    MultipleLanguages.scriptTrace.countP isFetch = 1 ∧
    BasicCallEnglishOnly.scriptTrace.countP isTranscribeCall = 1 ∧
    MultipleLanguages.scriptTrace.countP isTranscribeCall = 1 ∧
    BasicCallEnglishOnly.scriptTrace.findIdx isFetch <
      BasicCallEnglishOnly.scriptTrace.findIdx isTranscribeCall ∧
    MultipleLanguages.scriptTrace.findIdx isFetch <
      MultipleLanguages.scriptTrace.findIdx isTranscribeCall ∧
    MultipleLanguages.scriptTrace.findIdx isFetch = 0 ∧
    BasicCallEnglishOnly.scriptTrace.findIdx isTranscriberStep <
      BasicCallEnglishOnly.scriptTrace.findIdx isFetch := by decide

/-- Claim C5: for every nonempty probability mapping, the body of
detect_language_and_transcribe performs its pipeline steps in exactly the
order load audio, pad or trim, compute the log-mel spectrogram, detect
language, construct decoding options with the selected language and a
task that is transcribe or translate, then decode (console prints are
interleaved but are not pipeline steps). -/
theorem manual_mode_pipeline_order
    (audio_file : String) (language_probs : List (String × ℚ))
    (h : language_probs ≠ []) :
    ∃ p task, maxByValue language_probs = some p ∧
      (task = "transcribe" ∨ task = "translate") ∧
      (MultipleLanguages.detect_language_and_transcribe_trace audio_file
          language_probs).filter isPipelineStep =
        [Step.loadAudio audio_file, Step.padOrTrim, Step.logMel, Step.detectLanguage,
         Step.mkOptions p.1 task, Step.decodeCall] := by
  match language_probs, h with
  | b :: l, _ =>
    exact ⟨pickBest b l, "transcribe", rfl, Or.inl rfl, rfl⟩

/-- Witness for C5 at a concrete mapping. -/
theorem manual_mode_pipeline_order_witness :
    exampleProbs ≠ [] ∧
    ∃ p task, maxByValue exampleProbs = some p ∧
      (task = "transcribe" ∨ task = "translate") ∧
      (MultipleLanguages.detect_language_and_transcribe_trace
          "dutch_the_netherlands.mp3" exampleProbs).filter isPipelineStep =
        [Step.loadAudio "dutch_the_netherlands.mp3", Step.padOrTrim, Step.logMel,
         Step.detectLanguage, Step.mkOptions p.1 task, Step.decodeCall] :=
  ⟨by decide,
   manual_mode_pipeline_order "dutch_the_netherlands.mp3" exampleProbs (by decide)⟩

/-- Counterexample to claim C6: the multi-language script performs no
language detection at all in its module-level execution — the call to
detect_language_and_transcribe is commented out — while it does perform
a transcription/translation step (the direct-mode transcribe call with
task translate). -/
theorem no_detection_in_executed_script_counterexample :
    MultipleLanguages.scriptTrace.countP isDetectLanguage = 0 ∧
    MultipleLanguages.scriptTrace.countP isTranscribeCall = 1 ∧
    MultipleLanguages.scriptTrace.countP isTranslateTask = 1 := by decide

/-- Claim C6 amended: explicit language detection precedes the decode
only inside the body of the function detect_language_and_transcribe,
whose invocation is commented out; the executed module-level sequence of
the multi-language script performs no language detection before (or
anywhere around) its translation step. -/
theorem detection_before_decode_only_in_function
    (audio_file : String) (language_probs : List (String × ℚ))
    (h : language_probs ≠ []) :
    (MultipleLanguages.detect_language_and_transcribe_trace audio_file
        language_probs).findIdx isDetectLanguage <
      (MultipleLanguages.detect_language_and_transcribe_trace audio_file
        language_probs).findIdx isDecodeCall ∧
    MultipleLanguages.scriptTrace.countP isDetectLanguage = 0 := by
  match language_probs, h with
  | b :: l, _ =>
    have h1 : (MultipleLanguages.detect_language_and_transcribe_trace audio_file
        (b :: l)).findIdx isDetectLanguage = 3 := rfl
    have h2 : (MultipleLanguages.detect_language_and_transcribe_trace audio_file
        (b :: l)).findIdx isDecodeCall = 6 := rfl
    refine ⟨?_, by decide⟩
    rw [h1, h2]
    decide

/-- Witness for the amended C6 at a concrete mapping. -/
theorem detection_before_decode_only_in_function_witness :
    exampleProbs ≠ [] ∧
    ((MultipleLanguages.detect_language_and_transcribe_trace
        "dutch_the_netherlands.mp3" exampleProbs).findIdx isDetectLanguage <
      (MultipleLanguages.detect_language_and_transcribe_trace
        "dutch_the_netherlands.mp3" exampleProbs).findIdx isDecodeCall ∧
    MultipleLanguages.scriptTrace.countP isDetectLanguage = 0) :=
  ⟨by decide,
   detection_before_decode_only_in_function "dutch_the_netherlands.mp3" exampleProbs
     (by decide)⟩

/-- Claim C7: each script performs exactly one fetch, against its
hard-coded URL constant and hard-coded destination filename; the traces
are closed constants (the scripts take no arguments), so neither the URL
nor the filename depends on any input. -/
theorem single_fetch_fixed_url :
    BasicCallEnglishOnly.scriptTrace.countP isFetch = 1 ∧
    MultipleLanguages.scriptTrace.countP isFetch = 1 ∧
    Step.fetch BasicCallEnglishOnly.AUDIO_URL BasicCallEnglishOnly.AUDIO_FILE ∈
      BasicCallEnglishOnly.scriptTrace ∧
    Step.fetch MultipleLanguages.AUDIO_URL MultipleLanguages.AUDIO_FILE ∈
      MultipleLanguages.scriptTrace ∧
    BasicCallEnglishOnly.AUDIO_URL =
      "https://github.com/fenago/whisper/raw/refs/heads/main/test_audio_files/terrible_quality.mp3" ∧
    BasicCallEnglishOnly.AUDIO_FILE = "terrible_quality.mp3" ∧
    MultipleLanguages.AUDIO_URL =
      "https://github.com/fenago/whisper/raw/refs/heads/main/test_audio_files/dutch_the_netherlands.mp3" ∧
    MultipleLanguages.AUDIO_FILE = "dutch_the_netherlands.mp3" := by
  refine ⟨by decide, by decide, ?_, ?_, rfl, rfl, rfl, rfl⟩
  · exact List.mem_cons_of_mem _ (List.mem_cons_self _ _)
  · exact List.mem_cons_self _ _

/-- Counterexample to claim C8: at a concrete probability mapping and
decoding result, detect_language_and_transcribe returns exactly the bare
text string of the decoding result — not a result value carrying
segment-level detail — and its body issues no translate task at all (its
only decoding options carry task transcribe), so the returned text is a
transcription in the detected language, not translated text. -/
theorem multi_language_entry_point_result_counterexample :
    MultipleLanguages.detect_language_and_transcribe exampleProbs exampleDecoded =
      some "Hallo wereld" ∧
    exampleDecoded.text = "Hallo wereld" ∧
    (MultipleLanguages.detect_language_and_transcribe_trace
        "dutch_the_netherlands.mp3" exampleProbs).countP isTranslateTask = 0 ∧
    Step.mkOptions "nl" "transcribe" ∈
      MultipleLanguages.detect_language_and_transcribe_trace
        "dutch_the_netherlands.mp3" exampleProbs := by decide

/-- Claim C8 amended: each Transcriber entry point returns a result
containing the recognized text — get_transcription returns the full
transcription result unmodified (text together with segment-level
detail), while detect_language_and_transcribe returns only the text
string of the decoding result, produced with task transcribe, carrying
neither segment-level detail nor translated text; translated text in the
multi-language script comes only from the module-level direct-mode
transcribe call with task translate. -/
theorem transcriber_entry_point_results
    (result : TranscriptionResult) (audio_file : String)
    (language_probs : List (String × ℚ)) (decoded : DecodingResult)
    (h : language_probs ≠ []) :
    BasicCallEnglishOnly.get_transcription result = result ∧
    MultipleLanguages.detect_language_and_transcribe language_probs decoded =
      some decoded.text ∧
    (∀ lang task, Step.mkOptions lang task ∈
      MultipleLanguages.detect_language_and_transcribe_trace audio_file
        language_probs → task = "transcribe") ∧
    Step.transcribeCall MultipleLanguages.AUDIO_FILE (some "nl") (some "translate") true ∈
      MultipleLanguages.scriptTrace := by
  match language_probs, h with
  | b :: l, _ =>
    refine ⟨rfl, rfl, ?_, ?_⟩
    · intro lang task hmem
      simp [MultipleLanguages.detect_language_and_transcribe_trace, maxByValue] at hmem
      exact hmem.2
    · exact List.mem_cons_of_mem _ (List.mem_cons_of_mem _ (List.mem_cons_self _ _))

/-- Witness for the amended C8 at concrete values. -/
theorem transcriber_entry_point_results_witness :
    exampleProbs ≠ [] ∧
    (BasicCallEnglishOnly.get_transcription exampleResult = exampleResult ∧
    MultipleLanguages.detect_language_and_transcribe exampleProbs exampleDecoded =
      some exampleDecoded.text ∧
    (∀ lang task, Step.mkOptions lang task ∈
      MultipleLanguages.detect_language_and_transcribe_trace
        "dutch_the_netherlands.mp3" exampleProbs → task = "transcribe") ∧
    Step.transcribeCall MultipleLanguages.AUDIO_FILE (some "nl") (some "translate") true ∈
      MultipleLanguages.scriptTrace) :=
  ⟨by decide,
   transcriber_entry_point_results exampleResult "dutch_the_netherlands.mp3"
     exampleProbs exampleDecoded (by decide)⟩

/-- Claim C10: every decoding options value constructed by
detect_language_and_transcribe carries task transcribe, so manual mode
never translates; task translate occurs exactly once in the executed
multi-language script, in the module-level direct-mode transcribe call,
and that call passes the hard-coded language nl (the executed script
performs no language detection whose result it could pass). -/
theorem manual_mode_never_translates
    (audio_file : String) (language_probs : List (String × ℚ))
    (lang task : String)
    (hmem : Step.mkOptions lang task ∈
      MultipleLanguages.detect_language_and_transcribe_trace audio_file
        language_probs) :
    task = "transcribe" ∧
    MultipleLanguages.scriptTrace.countP isTranslateTask = 1 ∧
    Step.transcribeCall MultipleLanguages.AUDIO_FILE (some "nl") (some "translate") true ∈
      MultipleLanguages.scriptTrace ∧
    MultipleLanguages.scriptTrace.countP isDetectLanguage = 0 := by
  refine ⟨?_, by decide, ?_, by decide⟩
  · unfold MultipleLanguages.detect_language_and_transcribe_trace at hmem
    cases hmax : maxByValue language_probs with
    | none =>
      rw [hmax] at hmem
      simp at hmem
    | some p =>
      rw [hmax] at hmem
      simp at hmem
      exact hmem.2
  · exact List.mem_cons_of_mem _ (List.mem_cons_of_mem _ (List.mem_cons_self _ _))

/-- Witness for C10 at a concrete mapping: the options constructed for
the detected language nl carry task transcribe. -/
theorem manual_mode_never_translates_witness :
    Step.mkOptions "nl" "transcribe" ∈
      MultipleLanguages.detect_language_and_transcribe_trace
        "dutch_the_netherlands.mp3" exampleProbs ∧
    ("transcribe" = "transcribe" ∧
    MultipleLanguages.scriptTrace.countP isTranslateTask = 1 ∧
    Step.transcribeCall MultipleLanguages.AUDIO_FILE (some "nl") (some "translate") true ∈
      MultipleLanguages.scriptTrace ∧
    MultipleLanguages.scriptTrace.countP isDetectLanguage = 0) :=
  ⟨by decide,
   manual_mode_never_translates "dutch_the_netherlands.mp3" exampleProbs "nl"
     "transcribe" (by decide)⟩

end Whisper
